import Mathlib

/-!
Verification development for the event-store service
(`services/event-store/src/main.rs` and `error.rs`).

The service is shallowly embedded: the relational state (the `events` and
`snapshots` tables) is a pair of lists of rows, SQL statements are list
operations, 64-bit integers are `Int`, UUIDs are `Nat`, timestamps are `Int`,
and each HTTP handler is a Lean function from the database state and the
request to the new database state and an `Except AppError` result.

External collaborators that are not part of the repository are modelled from
their documented contracts:
  * `serde_json` values and their byte serialization are modelled by the
    `Json` type together with an executable, injective byte encoder
    `serde_to_vec` and its verified inverse `serde_from_slice`;
  * `lz4_flex` block compression is modelled as an identity codec whose
    decompressor enforces the hard bound on the decompressed size, which is
    the observable contract the service relies on;
  * PostgreSQL statement semantics (SELECT/INSERT/DELETE/aggregate/LEFT JOIN/
    GROUP BY/ORDER BY/LIMIT, and the `UNIQUE(stream_id, version)` constraint)
    are given list-level semantics, statement by statement.  Each SQL
    statement commits or rolls back individually; there is no transaction
    around multi-statement handlers, which the embedding mirrors by threading
    the state through each statement.
-/

namespace EventStore

/-! ## JSON values (model of `serde_json::Value`) -/

mutual

/-- Model of `serde_json::Value`: null, booleans, numbers (the service's
payloads are opaque; numbers are modelled as integers), strings, arrays and
objects. -/
inductive Json where
  | null : Json
  | bool (b : Bool) : Json
  | num (n : Int) : Json
  | str (s : String) : Json
  | arr (xs : JsonList) : Json
  | obj (kvs : JsonObj) : Json
deriving DecidableEq

/-- A list of JSON values (the elements of a JSON array). -/
inductive JsonList where
  | nil : JsonList
  | cons (hd : Json) (tl : JsonList) : JsonList
deriving DecidableEq

/-- An association list of string keys and JSON values (a JSON object). -/
inductive JsonObj where
  | nil : JsonObj
  | cons (k : String) (v : Json) (tl : JsonObj) : JsonObj
deriving DecidableEq

end

/-- Number of elements of a JSON array. -/
def JsonList.length : JsonList → Nat
  | .nil => 0
  | .cons _ tl => tl.length + 1

/-- Number of key-value pairs of a JSON object. -/
def JsonObj.length : JsonObj → Nat
  | .nil => 0
  | .cons _ _ tl => tl.length + 1

/-! ## Byte serialization (model of `serde_json::to_vec` / `from_slice`)

`serde_json` is an external library; what the service relies on is that
`from_slice` inverts `to_vec`.  The model realises that contract with an
executable variable-length byte encoding and a verified decoder. -/

/-- Concatenation of the lists produced from the elements of a list (used
both by the byte encoders and as the semantics of a SQL join). -/
def concatMap {α β : Type} (f : α → List β) : List α → List β
  | [] => []
  | a :: as => f a ++ concatMap f as

/-- Little-endian base-128 varint encoding of a natural number, with explicit
fuel so that the definition is structurally recursive; `n` itself is always
enough fuel. -/
def encodeNatAux (fuel n : Nat) : List Nat :=
  match fuel with
  | 0 => [n]
  | fuel + 1 => if n < 128 then [n] else (n % 128 + 128) :: encodeNatAux fuel (n / 128)

/-- Little-endian base-128 varint encoding of a natural number; every byte is
below 256 and the encoding is prefix-free. -/
def encodeNat (n : Nat) : List Nat := encodeNatAux n n

/-- Decoder of `encodeNat`, returning the value and the unconsumed rest. -/
def decodeNat : List Nat → Option (Nat × List Nat)
  | [] => none
  | b :: rest =>
    if b < 128 then some (b, rest)
    else
      match decodeNat rest with
      | some (m, rest1) => some (b - 128 + 128 * m, rest1)
      | none => none

/-- Sign-then-magnitude encoding of an integer. -/
def encodeInt (n : Int) : List Nat :=
  (if n < 0 then 1 else 0) :: encodeNat n.natAbs

/-- Decoder of `encodeInt`. -/
def decodeInt : List Nat → Option (Int × List Nat)
  | [] => none
  | b :: rest =>
    match decodeNat rest with
    | some (m, rest1) =>
      if b = 1 then some (-(m : Int), rest1)
      else if b = 0 then some ((m : Int), rest1)
      else none
    | none => none

/-- Length-prefixed encoding of a string as the varints of its characters. -/
def encodeString (s : String) : List Nat :=
  encodeNat s.data.length ++ concatMap (fun c => encodeNat c.toNat) s.data

/-- Decoder of a fixed number of characters. -/
def decodeChars : Nat → List Nat → Option (List Char × List Nat)
  | 0, l => some ([], l)
  | n + 1, l =>
    match decodeNat l with
    | some (c, r) =>
      match decodeChars n r with
      | some (cs, r1) => some (Char.ofNat c :: cs, r1)
      | none => none
    | none => none

/-- Decoder of `encodeString`. -/
def decodeString (l : List Nat) : Option (String × List Nat) :=
  match decodeNat l with
  | some (n, r) =>
    match decodeChars n r with
    | some (cs, r1) => some (String.mk cs, r1)
    | none => none
  | none => none

mutual

/-- Tagged encoding of a JSON value (tag byte, then the payload). -/
def encodeJson : Json → List Nat
  | .null => [0]
  | .bool b => [1, if b then 1 else 0]
  | .num n => 2 :: encodeInt n
  | .str s => 3 :: encodeString s
  | .arr xs => 4 :: (encodeNat xs.length ++ encodeJsonList xs)
  | .obj kvs => 5 :: (encodeNat kvs.length ++ encodeJsonObj kvs)

/-- Concatenated encodings of the elements of a JSON array. -/
def encodeJsonList : JsonList → List Nat
  | .nil => []
  | .cons v tl => encodeJson v ++ encodeJsonList tl

/-- Concatenated encodings of the pairs of a JSON object. -/
def encodeJsonObj : JsonObj → List Nat
  | .nil => []
  | .cons k v tl => encodeString k ++ encodeJson v ++ encodeJsonObj tl

end

/-- Decoder of a fixed number of array elements, parameterized by the decoder
for a single value. -/
def decodeCountArr (dec : List Nat → Option (Json × List Nat)) :
    Nat → List Nat → Option (JsonList × List Nat)
  | 0, l => some (.nil, l)
  | n + 1, l =>
    match dec l with
    | some (v, r) =>
      match decodeCountArr dec n r with
      | some (vs, r1) => some (.cons v vs, r1)
      | none => none
    | none => none

/-- Decoder of a fixed number of object entries, parameterized by the decoder
for a single value. -/
def decodeCountObj (dec : List Nat → Option (Json × List Nat)) :
    Nat → List Nat → Option (JsonObj × List Nat)
  | 0, l => some (.nil, l)
  | n + 1, l =>
    match decodeString l with
    | some (k, r) =>
      match dec r with
      | some (v, r1) =>
        match decodeCountObj dec n r1 with
        | some (kvs, r2) => some (.cons k v kvs, r2)
        | none => none
      | none => none
    | none => none

/-- Fuelled decoder of a JSON value; the fuel only bounds the nesting depth of
containers, so any fuel at least the depth of the encoded value succeeds. -/
def decodeJsonF : Nat → List Nat → Option (Json × List Nat)
  | 0, _ => none
  | fuel + 1, l =>
    match l with
    | 0 :: r => some (.null, r)
    | 1 :: b :: r => some (.bool (b == 1), r)
    | 2 :: r =>
      (match decodeInt r with
       | some (n, r1) => some (.num n, r1)
       | none => none)
    | 3 :: r =>
      (match decodeString r with
       | some (s, r1) => some (.str s, r1)
       | none => none)
    | 4 :: r =>
      (match decodeNat r with
       | some (n, r1) =>
         match decodeCountArr (decodeJsonF fuel) n r1 with
         | some (xs, r2) => some (.arr xs, r2)
         | none => none
       | none => none)
    | 5 :: r =>
      (match decodeNat r with
       | some (n, r1) =>
         match decodeCountObj (decodeJsonF fuel) n r1 with
         | some (kvs, r2) => some (.obj kvs, r2)
         | none => none
       | none => none)
    | _ => none

mutual

/-- Container-nesting depth of a JSON value. -/
def Json.depth : Json → Nat
  | .null => 1
  | .bool _ => 1
  | .num _ => 1
  | .str _ => 1
  | .arr xs => xs.depth + 1
  | .obj kvs => kvs.depth + 1

/-- Greatest depth of the elements of a JSON array. -/
def JsonList.depth : JsonList → Nat
  | .nil => 0
  | .cons v tl => max v.depth tl.depth

/-- Greatest depth of the values of a JSON object. -/
def JsonObj.depth : JsonObj → Nat
  | .nil => 0
  | .cons _ v tl => max v.depth tl.depth

end

theorem decodeNat_encodeNatAux (fuel : Nat) : ∀ (n : Nat), n ≤ fuel → ∀ (rest : List Nat),
    decodeNat (encodeNatAux fuel n ++ rest) = some (n, rest) := by
  induction fuel with
  | zero =>
    intro n hn rest
    have h0 : n = 0 := Nat.le_zero.mp hn
    subst h0
    simp [encodeNatAux, decodeNat]
  | succ fuel ih =>
    intro n hn rest
    rw [encodeNatAux]
    by_cases h : n < 128
    · simp [h, decodeNat]
    · rw [if_neg h]
      have h2 : ¬ (n % 128 + 128 < 128) := by omega
      simp only [List.cons_append, decodeNat, if_neg h2, List.append_eq]
      have hdiv : n / 128 ≤ fuel := by
        have hlt : n / 128 < n := Nat.div_lt_self (by omega) (by omega)
        omega
      rw [ih (n / 128) hdiv]
      simp only [Option.some.injEq, Prod.mk.injEq]
      exact ⟨by omega, trivial⟩

theorem decodeNat_encodeNat (n : Nat) (rest : List Nat) :
    decodeNat (encodeNat n ++ rest) = some (n, rest) :=
  decodeNat_encodeNatAux n n le_rfl rest

theorem decodeInt_encodeInt (n : Int) (rest : List Nat) :
    decodeInt (encodeInt n ++ rest) = some (n, rest) := by
  unfold encodeInt
  by_cases h : n < 0
  · simp only [if_pos h, List.cons_append, decodeInt, decodeNat_encodeNat]
    norm_num
    rw [abs_of_neg h]
    ring
  · simp only [if_neg h, List.cons_append, decodeInt, decodeNat_encodeNat]
    norm_num
    omega

theorem decodeChars_encode (cs : List Char) (rest : List Nat) :
    decodeChars cs.length (concatMap (fun c => encodeNat c.toNat) cs ++ rest) =
      some (cs, rest) := by
  induction cs with
  | nil => simp [concatMap, decodeChars]
  | cons c cs ih =>
    simp only [List.length_cons, concatMap, decodeChars, List.append_assoc,
      decodeNat_encodeNat, ih, Char.ofNat_toNat]

theorem decodeString_encodeString (s : String) (rest : List Nat) :
    decodeString (encodeString s ++ rest) = some (s, rest) := by
  unfold encodeString decodeString
  simp only [List.append_assoc, decodeNat_encodeNat, decodeChars_encode]

mutual

theorem decodeJsonF_encodeJson (v : Json) : ∀ (fuel : Nat), v.depth ≤ fuel →
    ∀ (rest : List Nat), decodeJsonF fuel (encodeJson v ++ rest) = some (v, rest) := by
  cases v with
  | null =>
    intro fuel hf rest
    match fuel, hf with
    | fuel + 1, _ => simp [encodeJson, decodeJsonF]
  | bool b =>
    intro fuel hf rest
    match fuel, hf with
    | fuel + 1, _ => cases b <;> simp [encodeJson, decodeJsonF]
  | num n =>
    intro fuel hf rest
    match fuel, hf with
    | fuel + 1, _ => simp [encodeJson, decodeJsonF, decodeInt_encodeInt]
  | str s =>
    intro fuel hf rest
    match fuel, hf with
    | fuel + 1, _ => simp [encodeJson, decodeJsonF, decodeString_encodeString]
  | arr xs =>
    intro fuel hf rest
    match fuel, hf with
    | fuel + 1, hf =>
      have hxs : xs.depth ≤ fuel := by
        simp only [Json.depth] at hf; omega
      simp only [encodeJson, decodeJsonF, List.cons_append, List.append_assoc,
        decodeNat_encodeNat, decodeCountArr_encodeJsonList xs fuel hxs rest]
  | obj kvs =>
    intro fuel hf rest
    match fuel, hf with
    | fuel + 1, hf =>
      have hkvs : kvs.depth ≤ fuel := by
        simp only [Json.depth] at hf; omega
      simp only [encodeJson, decodeJsonF, List.cons_append, List.append_assoc,
        decodeNat_encodeNat, decodeCountObj_encodeJsonObj kvs fuel hkvs rest]

theorem decodeCountArr_encodeJsonList (xs : JsonList) : ∀ (fuel : Nat), xs.depth ≤ fuel →
    ∀ (rest : List Nat),
      decodeCountArr (decodeJsonF fuel) xs.length (encodeJsonList xs ++ rest) =
        some (xs, rest) := by
  cases xs with
  | nil => intro fuel _ rest; simp [JsonList.length, encodeJsonList, decodeCountArr]
  | cons v tl =>
    intro fuel hf rest
    have hv : v.depth ≤ fuel := le_trans (le_max_left _ _) hf
    have htl : tl.depth ≤ fuel := le_trans (le_max_right _ _) hf
    simp only [JsonList.length, encodeJsonList, decodeCountArr, List.append_assoc,
      decodeJsonF_encodeJson v fuel hv, decodeCountArr_encodeJsonList tl fuel htl rest]

theorem decodeCountObj_encodeJsonObj (kvs : JsonObj) : ∀ (fuel : Nat), kvs.depth ≤ fuel →
    ∀ (rest : List Nat),
      decodeCountObj (decodeJsonF fuel) kvs.length (encodeJsonObj kvs ++ rest) =
        some (kvs, rest) := by
  cases kvs with
  | nil => intro fuel _ rest; simp [JsonObj.length, encodeJsonObj, decodeCountObj]
  | cons k v tl =>
    intro fuel hf rest
    have hv : v.depth ≤ fuel := le_trans (le_max_left _ _) hf
    have htl : tl.depth ≤ fuel := le_trans (le_max_right _ _) hf
    simp only [JsonObj.length, encodeJsonObj, decodeCountObj, List.append_assoc,
      decodeString_encodeString, decodeJsonF_encodeJson v fuel hv,
      decodeCountObj_encodeJsonObj tl fuel htl rest]

end

theorem encodeNatAux_length_pos (fuel n : Nat) : 1 ≤ (encodeNatAux fuel n).length := by
  cases fuel with
  | zero => simp [encodeNatAux]
  | succ fuel =>
    rw [encodeNatAux]
    by_cases h : n < 128
    · simp [h]
    · simp [h]

theorem encodeNat_length_pos (n : Nat) : 1 ≤ (encodeNat n).length :=
  encodeNatAux_length_pos n n

mutual

theorem json_depth_le_encode (v : Json) : v.depth ≤ (encodeJson v).length := by
  cases v with
  | null => simp [Json.depth, encodeJson]
  | bool b => simp [Json.depth, encodeJson]
  | num n => simp [Json.depth, encodeJson]
  | str s => simp [Json.depth, encodeJson]
  | arr xs =>
    have h1 : xs.depth ≤ (encodeJsonList xs).length + 1 := jsonList_depth_le_encode xs
    have h2 : 1 ≤ (encodeNat xs.length).length := encodeNat_length_pos _
    simp only [Json.depth, encodeJson, List.length_cons, List.length_append]
    omega
  | obj kvs =>
    have h1 : kvs.depth ≤ (encodeJsonObj kvs).length + 1 := jsonObj_depth_le_encode kvs
    have h2 : 1 ≤ (encodeNat kvs.length).length := encodeNat_length_pos _
    simp only [Json.depth, encodeJson, List.length_cons, List.length_append]
    omega

theorem jsonList_depth_le_encode (xs : JsonList) :
    xs.depth ≤ (encodeJsonList xs).length + 1 := by
  cases xs with
  | nil => simp [JsonList.depth, encodeJsonList]
  | cons v tl =>
    have h1 : v.depth ≤ (encodeJson v).length := json_depth_le_encode v
    have h2 : tl.depth ≤ (encodeJsonList tl).length + 1 := jsonList_depth_le_encode tl
    simp only [JsonList.depth, encodeJsonList, List.length_append, max_le_iff]
    omega

theorem jsonObj_depth_le_encode (kvs : JsonObj) :
    kvs.depth ≤ (encodeJsonObj kvs).length + 1 := by
  cases kvs with
  | nil => simp [JsonObj.depth, encodeJsonObj]
  | cons k v tl =>
    have h1 : v.depth ≤ (encodeJson v).length := json_depth_le_encode v
    have h2 : tl.depth ≤ (encodeJsonObj tl).length + 1 := jsonObj_depth_le_encode tl
    simp only [JsonObj.depth, encodeJsonObj, List.length_append, max_le_iff]
    omega

end

/-- Model of `serde_json::to_vec`: serialize a JSON value to bytes. -/
def serde_to_vec (v : Json) : List Nat := encodeJson v

/-- Model of `serde_json::from_slice`: decode bytes back into a JSON value,
failing unless the whole input is consumed. -/
def serde_from_slice (bytes : List Nat) : Except Unit Json :=
  match decodeJsonF (bytes.length + 1) bytes with
  | some (v, []) => .ok v
  | _ => .error ()

theorem serde_from_slice_to_vec (v : Json) :
    serde_from_slice (serde_to_vec v) = .ok v := by
  unfold serde_from_slice serde_to_vec
  have hdepth : v.depth ≤ (encodeJson v).length + 1 :=
    le_trans (json_depth_le_encode v) (Nat.le_succ _)
  have h := decodeJsonF_encodeJson v ((encodeJson v).length + 1) hdepth []
  rw [List.append_nil] at h
  rw [h]

/-! ## LZ4 compression (model of `lz4_flex`)

`lz4_flex` is an external library.  The contract the service relies on is
that block decompression inverts block compression and that
`lz4_flex::decompress(data, max)` fails if the decompressed output would
exceed `max` bytes.  The codec itself is modelled as the identity, which
preserves exactly that observable contract (the decompressed size of
`compress x` is the size of `x`). -/

/-- Model of `lz4_flex::compress`. -/
def lz4_compress (bytes : List Nat) : List Nat := bytes

/-- Model of `lz4_flex::decompress` with its hard bound on the decompressed
size. -/
def lz4_decompress (bytes : List Nat) (maxSize : Nat) : Except Unit (List Nat) :=
  if bytes.length ≤ maxSize then .ok bytes else .error ()

/-! ## Error taxonomy (`error.rs`) -/

/-- Decidable equality of `Except` results, used to state concrete handler
outcomes. -/
instance exceptDecEq {ε α : Type} [DecidableEq ε] [DecidableEq α] :
    DecidableEq (Except ε α)
  | .error e1, .error e2 =>
    if h : e1 = e2 then isTrue (by rw [h]) else isFalse (by intro hc; cases hc; exact h rfl)
  | .error _, .ok _ => isFalse (by intro hc; cases hc)
  | .ok _, .error _ => isFalse (by intro hc; cases hc)
  | .ok a1, .ok a2 =>
    if h : a1 = a2 then isTrue (by rw [h]) else isFalse (by intro hc; cases hc; exact h rfl)

/-- The `AppError` enum of `error.rs` (each variant wraps its diagnostic
string). -/
inductive AppError where
  | Database (msg : String)
  | BadRequest (msg : String)
  | Conflict (msg : String)
  | NotFound (msg : String)
  | Internal (msg : String)
  | Serialization (msg : String)
  | Sql (msg : String)
deriving DecidableEq

/-- The HTTP status assigned by `AppError::into_response` in `error.rs`. -/
def AppError.statusCode : AppError → Nat
  | .Database _ => 500
  | .BadRequest _ => 400
  | .Conflict _ => 409
  | .NotFound _ => 404
  | .Internal _ => 500
  | .Serialization _ => 400
  | .Sql _ => 500

/-! ## Relational state (the `events` and `snapshots` tables) -/

/-- A row of the `events` table (`run_migrations` in `main.rs`).  UUIDs are
modelled as `Nat` and timestamps as `Int`. -/
structure EventRow where
  id : Nat
  stream_id : String
  event_type : String
  data : Json
  metadata : Option Json
  version : Int
  created_at : Int
  partition_key : String
  archived : Bool
deriving DecidableEq

/-- A row of the `snapshots` table. -/
structure SnapshotRow where
  id : Nat
  stream_id : String
  version : Int
  data : List Nat
  created_at : Int
deriving DecidableEq

/-- The database state: the two tables owned by the service. -/
structure Db where
  events : List EventRow
  snapshots : List SnapshotRow
deriving DecidableEq

/-- The `UNIQUE(stream_id, version)` constraint of the `events` table, as a
property of a database state. -/
def StreamVersionsUnique (db : Db) : Prop :=
  List.Pairwise (fun a b => a.stream_id = b.stream_id → a.version ≠ b.version) db.events

instance (db : Db) : Decidable (StreamVersionsUnique db) := by
  unfold StreamVersionsUnique
  infer_instance

/-! ## API types (`main.rs`) -/

/-- The `Event` struct returned by the API (no `partition_key`/`archived`). -/
structure Event where
  id : Nat
  stream_id : String
  event_type : String
  data : Json
  metadata : Option Json
  version : Int
  created_at : Int
deriving DecidableEq

/-- The `AppendEventRequest` body of `POST /events`. -/
structure AppendEventRequest where
  stream_id : String
  event_type : String
  data : Json
  metadata : Option Json
  expected_version : Option Int
deriving DecidableEq

/-- The `EventsQuery` query string of `GET /streams/:stream_id/events`. -/
structure EventsQuery where
  from_version : Option Int
  limit : Option Int
  direction : Option String
deriving DecidableEq

/-- The `CreateSnapshotRequest` body of `POST /snapshots`. -/
structure CreateSnapshotRequest where
  stream_id : String
  version : Int
  data : Json
deriving DecidableEq

/-- The `Snapshot` struct returned by `POST /snapshots` (its `data` field is
the compressed bytes). -/
structure Snapshot where
  id : Nat
  stream_id : String
  version : Int
  data : List Nat
  created_at : Int
deriving DecidableEq

/-! ## Validation and helpers (`main.rs`) -/

/-- One character of the class accepted by `is_valid_stream_id`:
`c.is_alphanumeric() || c == '-' || c == '_' || c == '/'`.  Lean's
`Char.isAlphanum` coincides with Rust's `char::is_alphanumeric` on the ASCII
range; all theorems below that depend on the character class restrict
themselves to ASCII strings. -/
def isValidStreamChar (c : Char) : Bool :=
  c.isAlphanum || c == '-' || c == '_' || c == '/'

/-- The `is_valid_stream_id` check of `main.rs`: Rust's `str::len` is the
UTF-8 byte length, modelled by `String.utf8ByteSize`. -/
def is_valid_stream_id (stream_id : String) : Bool :=
  decide (stream_id.utf8ByteSize ≤ 255) && stream_id.data.all isValidStreamChar

/-- The `get_partition_key` helper: the prefix of the stream id before the
first `/` (the whole id when no `/` occurs), as `stream_id.split('/').next()`
computes it. -/
def get_partition_key (stream_id : String) : String :=
  String.mk (stream_id.data.takeWhile (fun c => c ≠ '/'))

/-- SQL `MAX` over a list of integers: `NULL` (`none`) on the empty list. -/
def sqlMaxInt : List Int → Option Int
  | [] => none
  | x :: xs => some (xs.foldl max x)

/-- The `get_stream_version` query:
`SELECT MAX(version) FROM events WHERE stream_id = $1`, with `unwrap_or(0)`
applied to the scalar. -/
def get_stream_version (db : Db) (stream_id : String) : Int :=
  (sqlMaxInt ((db.events.filter (fun e => e.stream_id == stream_id)).map
    (fun e => e.version))).getD 0

/-! ## Append path (`append_event` in `main.rs`) -/

/-- Errors surfaced by the backing store for a single statement. -/
inductive DbError where
  | uniqueViolation (msg : String)
  | other (msg : String)
deriving DecidableEq

/-- The diagnostic string of a database error (`e.to_string()` in Rust). -/
def DbError.message : DbError → String
  | .uniqueViolation m => m
  | .other m => m

/-- The `INSERT INTO events` statement: PostgreSQL rejects the row with a
unique-constraint violation when `(stream_id, version)` is already present,
and otherwise appends the row. -/
def insert_event (db : Db) (row : EventRow) : Except DbError Db :=
  if db.events.any (fun e => e.stream_id == row.stream_id && e.version == row.version) then
    .error (.uniqueViolation "duplicate key value violates unique constraint")
  else
    .ok { db with events := db.events ++ [row] }

/-- First phase of `append_event`: the stream-id validation, the
`get_stream_version` read and the `expected_version` comparison.  Returns the
current version on success. -/
def append_check (db : Db) (request : AppendEventRequest) : Except AppError Int :=
  if !is_valid_stream_id request.stream_id then
    .error (.BadRequest "Invalid stream_id format")
  else
    let current_version := get_stream_version db request.stream_id
    match request.expected_version with
    | some expected =>
      if current_version ≠ expected then
        .error (.Conflict ("Version conflict: expected " ++ toString expected ++
          ", got " ++ toString current_version))
      else
        .ok current_version
    | none => .ok current_version

/-- The row built by `append_event` for the `INSERT` (id, stream, type,
payload, metadata, the new version, the clock value, the derived partition
key, and `archived = false`). -/
def appendedRow (request : AppendEventRequest) (new_version : Int) (event_id : Nat)
    (now : Int) : EventRow :=
  { id := event_id
    stream_id := request.stream_id
    event_type := request.event_type
    data := request.data
    metadata := request.metadata
    version := new_version
    created_at := now
    partition_key := get_partition_key request.stream_id
    archived := false }

/-- Second phase of `append_event`: build the row and run the `INSERT`.  Any
error of the insert statement — including a unique-constraint violation — is
mapped to `AppError::Database(e.to_string())`, exactly as the
`.map_err(|e| AppError::Database(e.to_string()))` in `main.rs` does.  An
error leaves the state unchanged (each statement commits or rolls back
individually). -/
def append_insert (db : Db) (request : AppendEventRequest) (new_version : Int)
    (event_id : Nat) (now : Int) : Db × Except AppError Event :=
  match insert_event db (appendedRow request new_version event_id now) with
  | .error e => (db, .error (.Database e.message))
  | .ok db1 =>
    (db1, .ok
      { id := event_id
        stream_id := request.stream_id
        event_type := request.event_type
        data := request.data
        metadata := request.metadata
        version := new_version
        created_at := now })

/-- The `append_event` handler of `POST /events`: validation and version
check, then the insert of the row with `new_version = current_version + 1`.
`event_id` models the freshly generated UUID v4 and `now` the clock value. -/
def append_event (db : Db) (request : AppendEventRequest) (event_id : Nat) (now : Int) :
    Db × Except AppError Event :=
  match append_check db request with
  | .error e => (db, .error e)
  | .ok current_version => append_insert db request (current_version + 1) event_id now

/-! ## Read path (`get_stream_events` in `main.rs`) -/

/-- Ascending version order on event rows (`ORDER BY version ASC`). -/
def versionLeRow (a b : EventRow) : Prop := a.version ≤ b.version

/-- Descending version order on event rows (`ORDER BY version DESC`). -/
def versionGeRow (a b : EventRow) : Prop := b.version ≤ a.version

instance : DecidableRel versionLeRow :=
  fun a b => inferInstanceAs (Decidable (a.version ≤ b.version))

instance : DecidableRel versionGeRow :=
  fun a b => inferInstanceAs (Decidable (b.version ≤ a.version))

instance : IsTotal EventRow versionLeRow :=
  ⟨fun a b => Int.le_total a.version b.version⟩

instance : IsTrans EventRow versionLeRow :=
  ⟨fun _ _ _ hab hbc => le_trans hab hbc⟩

instance : IsTotal EventRow versionGeRow :=
  ⟨fun a b => Int.le_total b.version a.version⟩

instance : IsTrans EventRow versionGeRow :=
  ⟨fun _ _ _ hab hbc => le_trans hbc hab⟩

/-- Projection of a stored row to the API `Event` struct (the read handler
selects every column except `partition_key` and `archived`). -/
def rowToEvent (e : EventRow) : Event :=
  { id := e.id
    stream_id := e.stream_id
    event_type := e.event_type
    data := e.data
    metadata := e.metadata
    version := e.version
    created_at := e.created_at }

/-- The effective `LIMIT` value of the read query:
`query.limit.unwrap_or(100).min(1000)` — capped above at 1000, with no lower
clamp. -/
def effectiveLimit (limit : Option Int) : Int :=
  min (limit.getD 100) 1000

/-- The rows of the stream matching the `WHERE` clause of the read query
(`stream_id = $1 AND version >= $2`). -/
def matchingRows (db : Db) (stream_id : String) (from_version : Int) : List EventRow :=
  db.events.filter (fun e => e.stream_id == stream_id && decide (from_version ≤ e.version))

/-- The `get_stream_events` handler of `GET /streams/:stream_id/events`:
defaults are applied to the query, the `LIMIT` is capped at 1000, the rows of
the stream with `version >= from_version` are ordered by version (`DESC`
exactly when `direction == "backward"`, `ASC` otherwise) and truncated to the
limit.  PostgreSQL rejects a negative `LIMIT`, which surfaces as the same
`Database` error every storage failure of this handler is mapped to.  No
stream-id validation is performed on this path. -/
def get_stream_events (db : Db) (stream_id : String) (query : EventsQuery) :
    Except AppError (List Event) :=
  let from_version := query.from_version.getD 0
  let limit := effectiveLimit query.limit
  let direction := query.direction.getD "forward"
  if limit < 0 then
    .error (.Database "LIMIT must not be negative")
  else
    let sorted :=
      if direction == "backward" then
        List.insertionSort versionGeRow (matchingRows db stream_id from_version)
      else
        List.insertionSort versionLeRow (matchingRows db stream_id from_version)
    .ok ((sorted.take limit.toNat).map rowToEvent)

/-! ## Snapshot path (`create_snapshot` / `get_latest_snapshot` in `main.rs`) -/

/-- Descending version order on snapshot rows. -/
def snapVersionGeRow (a b : SnapshotRow) : Prop := b.version ≤ a.version

instance : DecidableRel snapVersionGeRow :=
  fun a b => inferInstanceAs (Decidable (b.version ≤ a.version))

instance : IsTotal SnapshotRow snapVersionGeRow :=
  ⟨fun a b => Int.le_total b.version a.version⟩

instance : IsTrans SnapshotRow snapVersionGeRow :=
  ⟨fun _ _ _ hab hbc => le_trans hbc hab⟩

/-- The `create_snapshot` handler of `POST /snapshots`: serialize and
compress the payload, then run two separate statements against the pool —
`DELETE FROM snapshots WHERE stream_id = $1`, then `INSERT INTO snapshots`.
There is no transaction around the two statements: each commits
individually, so the deletion persists even when the insert then fails.
`insert_fails` injects a backing-store failure of the insert statement (which
the handler maps to `AppError::Database`); the happy path is
`insert_fails = false`. -/
def create_snapshot (db : Db) (request : CreateSnapshotRequest) (snapshot_id : Nat)
    (now : Int) (insert_fails : Bool) : Db × Except AppError Snapshot :=
  let serialized_data := serde_to_vec request.data
  let compressed_data := lz4_compress serialized_data
  let db1 : Db :=
    { db with snapshots := db.snapshots.filter (fun s => !(s.stream_id == request.stream_id)) }
  if insert_fails then
    (db1, .error (.Database "insert failed"))
  else
    let row : SnapshotRow :=
      { id := snapshot_id
        stream_id := request.stream_id
        version := request.version
        data := compressed_data
        created_at := now }
    ({ db1 with snapshots := db1.snapshots ++ [row] },
     .ok
       { id := snapshot_id
         stream_id := request.stream_id
         version := request.version
         data := compressed_data
         created_at := now })

/-- The `get_latest_snapshot` handler of `GET /snapshots/:stream_id/latest`:
`SELECT data FROM snapshots WHERE stream_id = $1 ORDER BY version DESC
LIMIT 1`, then LZ4 decompression bounded at 1 MiB and JSON decoding; `none`
when the stream has no snapshot. -/
def get_latest_snapshot (db : Db) (stream_id : String) : Except AppError (Option Json) :=
  let rows := db.snapshots.filter (fun s => s.stream_id == stream_id)
  match (List.insertionSort snapVersionGeRow rows).head? with
  | none => .ok none
  | some row =>
    match lz4_decompress row.data (1024 * 1024) with
    | .error _ => .error (.Internal "Decompression failed")
    | .ok decompressed =>
      match serde_from_slice decompressed with
      | .error _ => .error (.Internal "Deserialization failed")
      | .ok data => .ok (some data)

/-! ## Scheduler query (`snapshot_scheduler` in `main.rs`) -/

/-- The row set of `FROM events e LEFT JOIN snapshots s ON
e.stream_id = s.stream_id`: one pair per matching snapshot of the event's
stream, or the event with `NULL` when the stream has no snapshot. -/
def leftJoinEventsSnapshots (db : Db) : List (EventRow × Option SnapshotRow) :=
  concatMap
    (fun e =>
      match db.snapshots.filter (fun s => s.stream_id == e.stream_id) with
      | [] => [(e, (none : Option SnapshotRow))]
      | s :: ss => (s :: ss).map (fun s1 => (e, some s1)))
    db.events

/-- The scheduler's needs-snapshot query, statement for statement:
`SELECT e.stream_id, MAX(e.version) as current_version, COALESCE(s.version, 0)
as snapshot_version FROM events e LEFT JOIN snapshots s ON e.stream_id =
s.stream_id GROUP BY e.stream_id, s.version HAVING MAX(e.version) -
COALESCE(s.version, 0) >= $1`.  Groups are keyed by `(e.stream_id,
s.version)` — the grouping the source actually performs. -/
def streams_needing_snapshot (db : Db) (threshold : Int) : List (String × Int × Int) :=
  let joined := leftJoinEventsSnapshots db
  let keys := (joined.map (fun p => (p.1.stream_id, p.2.map (fun s => s.version)))).dedup
  keys.filterMap (fun key =>
    let group := joined.filter
      (fun p => (p.1.stream_id, p.2.map (fun s => s.version)) == key)
    let current_version := (sqlMaxInt (group.map (fun p => p.1.version))).getD 0
    let snapshot_version := key.2.getD 0
    if threshold ≤ current_version - snapshot_version then
      some (key.1, current_version, snapshot_version)
    else
      none)

/-! ## Helper lemmas about SQL `MAX` and stream versions -/

theorem le_foldl_max (xs : List Int) : ∀ (init : Int), init ≤ xs.foldl max init := by
  induction xs with
  | nil => intro init; simp
  | cons x xs ih =>
    intro init
    exact le_trans (le_max_left init x) (ih (max init x))

theorem mem_le_foldl_max (xs : List Int) :
    ∀ (init x : Int), x ∈ xs → x ≤ xs.foldl max init := by
  induction xs with
  | nil => intro _ _ h; simp at h
  | cons y ys ih =>
    intro init x hx
    rcases List.mem_cons.mp hx with h | h
    · subst h
      exact le_trans (le_max_right init x) (le_foldl_max ys (max init x))
    · exact ih (max init y) x h

theorem foldl_max_choice (xs : List Int) :
    ∀ (init : Int), xs.foldl max init = init ∨ xs.foldl max init ∈ xs := by
  induction xs with
  | nil => intro init; simp
  | cons y ys ih =>
    intro init
    rw [List.foldl_cons]
    rcases ih (max init y) with h | h
    · rcases max_choice init y with hm | hm
      · left; rw [h, hm]
      · right; rw [h, hm]; exact List.mem_cons_self y ys
    · right; exact List.mem_cons.mpr (Or.inr h)

theorem sqlMaxInt_ge {l : List Int} {x : Int} (hx : x ∈ l) : x ≤ (sqlMaxInt l).getD 0 := by
  cases l with
  | nil => simp at hx
  | cons y ys =>
    simp only [sqlMaxInt, Option.getD_some]
    rcases List.mem_cons.mp hx with h | h
    · subst h; exact le_foldl_max ys x
    · exact mem_le_foldl_max ys y x h

theorem sqlMaxInt_mem {l : List Int} (h : l ≠ []) : (sqlMaxInt l).getD 0 ∈ l := by
  cases l with
  | nil => exact absurd rfl h
  | cons y ys =>
    simp only [sqlMaxInt, Option.getD_some]
    rcases foldl_max_choice ys y with h1 | h1
    · rw [h1]; exact List.mem_cons_self y ys
    · exact List.mem_cons.mpr (Or.inr h1)

theorem version_le_get_stream_version {db : Db} {e : EventRow} {sid : String}
    (he : e ∈ db.events) (hs : e.stream_id = sid) :
    e.version ≤ get_stream_version db sid := by
  unfold get_stream_version
  apply sqlMaxInt_ge
  exact List.mem_map_of_mem _ (List.mem_filter.mpr ⟨he, by simp [hs]⟩)

theorem get_stream_version_empty {db : Db} {sid : String}
    (h : ∀ e ∈ db.events, e.stream_id ≠ sid) : get_stream_version db sid = 0 := by
  unfold get_stream_version
  have : db.events.filter (fun e => e.stream_id == sid) = [] := by
    apply List.filter_eq_nil_iff.mpr
    intro e he
    simp [h e he]
  rw [this]
  rfl

theorem get_stream_version_attained {db : Db} {sid : String}
    (h : ∃ e ∈ db.events, e.stream_id = sid) :
    ∃ e ∈ db.events, e.stream_id = sid ∧ e.version = get_stream_version db sid := by
  obtain ⟨e0, he0, hs0⟩ := h
  have hne : (db.events.filter (fun e => e.stream_id == sid)).map (fun e => e.version) ≠ [] := by
    have : e0 ∈ db.events.filter (fun e => e.stream_id == sid) :=
      List.mem_filter.mpr ⟨he0, by simp [hs0]⟩
    intro hcontra
    rw [List.map_eq_nil_iff] at hcontra
    rw [hcontra] at this
    simp at this
  have hmem := sqlMaxInt_mem hne
  unfold get_stream_version
  obtain ⟨e, hef, hev⟩ := List.mem_map.mp hmem
  refine ⟨e, (List.mem_filter.mp hef).1, ?_, hev⟩
  have := (List.mem_filter.mp hef).2
  simpa using this

/-! ## Helper lemmas about the stream-id character class -/

/-- One character of the spec's stream-id grammar `[A-Za-z0-9_\x2d/]`,
written out from the spec's words (ASCII letter or digit ranges, underscore,
hyphen, slash).  This is the reference the source's character class is
compared against. -/
def streamIdGrammarChar (c : Char) : Bool :=
  (decide ('A' ≤ c) && decide (c ≤ 'Z')) || (decide ('a' ≤ c) && decide (c ≤ 'z')) ||
    (decide ('0' ≤ c) && decide (c ≤ '9')) || c == '_' || c == '-' || c == '/'

theorem isValidStreamChar_eq_grammar_of_ascii (c : Char) (h : c.toNat < 128) :
    isValidStreamChar c = streamIdGrammarChar c := by
  have henum : ∀ n : Fin 128,
      isValidStreamChar (Char.ofNat n.val) = streamIdGrammarChar (Char.ofNat n.val) := by
    decide
  have hc := henum ⟨c.toNat, h⟩
  rwa [Char.ofNat_toNat] at hc

theorem utf8Size_eq_one_of_lt128 (c : Char) (h : c.toNat < 128) : c.utf8Size = 1 := by
  unfold Char.utf8Size
  have hv : c.val ≤ UInt32.ofNatCore 127 Char.utf8Size.proof_1 := by
    rw [UInt32.le_def]
    have h127 : (UInt32.ofNatCore 127 Char.utf8Size.proof_1).toBitVec = 127#32 := rfl
    rw [h127, BitVec.le_def]
    have hh : c.val.toBitVec.toNat = c.toNat := rfl
    rw [hh]
    simp
    omega
  rw [if_pos hv]

theorem utf8ByteSize_go_ascii (cs : List Char) (h : ∀ c ∈ cs, c.toNat < 128) :
    String.utf8ByteSize.go cs = cs.length := by
  induction cs with
  | nil => rfl
  | cons c cs ih =>
    have hstep : String.utf8ByteSize.go (c :: cs) = String.utf8ByteSize.go cs + c.utf8Size := rfl
    rw [hstep, ih (fun x hx => h x (List.mem_cons_of_mem c hx)),
      utf8Size_eq_one_of_lt128 c (h c (List.mem_cons_self c cs))]
    rfl

theorem utf8ByteSize_ascii (s : String) (h : ∀ c ∈ s.data, c.toNat < 128) :
    s.utf8ByteSize = s.data.length := by
  cases s with
  | mk cs => exact utf8ByteSize_go_ascii cs h

theorem insert_event_fresh {db : Db} {row : EventRow}
    (h : ∀ e ∈ db.events, e.stream_id = row.stream_id → e.version < row.version) :
    insert_event db row = .ok { db with events := db.events ++ [row] } := by
  unfold insert_event
  have hany : db.events.any
      (fun e => e.stream_id == row.stream_id && e.version == row.version) = false := by
    apply List.any_eq_false.mpr
    intro e he
    simp only [Bool.and_eq_true, beq_iff_eq, not_and]
    intro hs hv
    exact absurd hv (ne_of_lt (h e he hs))
  rw [hany]
  simp

/-! ## Helper lemmas about the read path and sorting -/

/-- Strictly ascending version order on event rows. -/
def versionLtRow (a b : EventRow) : Prop := a.version < b.version

/-- Strictly descending version order on event rows. -/
def versionGtRow (a b : EventRow) : Prop := b.version < a.version

instance : IsAntisymm EventRow versionLtRow :=
  ⟨fun _ _ h1 h2 => (lt_irrefl _ (lt_trans h1 h2)).elim⟩

instance : IsAntisymm EventRow versionGtRow :=
  ⟨fun _ _ h1 h2 => (lt_irrefl _ (lt_trans h1 h2)).elim⟩

theorem mem_matchingRows {db : Db} {sid : String} {fv : Int} {x : EventRow} :
    x ∈ matchingRows db sid fv ↔ x ∈ db.events ∧ x.stream_id = sid ∧ fv ≤ x.version := by
  unfold matchingRows
  rw [List.mem_filter]
  simp

theorem matchingRows_pairwise_ne {db : Db} (h : StreamVersionsUnique db) (sid : String)
    (fv : Int) :
    List.Pairwise (fun a b : EventRow => a.version ≠ b.version) (matchingRows db sid fv) := by
  have hp : List.Pairwise
      (fun a b : EventRow => a.stream_id = b.stream_id → a.version ≠ b.version)
      (matchingRows db sid fv) :=
    List.Pairwise.sublist (List.filter_sublist _) h
  refine hp.imp_of_mem ?_
  intro a b ha hb hr
  exact hr ((mem_matchingRows.mp ha).2.1.trans (mem_matchingRows.mp hb).2.1.symm)

theorem sorted_le_strict {l : List EventRow}
    (hs : List.Sorted versionLeRow l)
    (hne : List.Pairwise (fun a b : EventRow => a.version ≠ b.version) l) :
    List.Pairwise versionLtRow l :=
  (List.Pairwise.and hs hne).imp (fun hab => lt_of_le_of_ne hab.1 hab.2)

theorem sorted_ge_strict {l : List EventRow}
    (hs : List.Sorted versionGeRow l)
    (hne : List.Pairwise (fun a b : EventRow => a.version ≠ b.version) l) :
    List.Pairwise versionGtRow l :=
  (List.Pairwise.and hs hne).imp (fun hab => lt_of_le_of_ne hab.1 hab.2.symm)

theorem reverse_sortAsc_eq_sortDesc {l : List EventRow}
    (hne : List.Pairwise (fun a b : EventRow => a.version ≠ b.version) l) :
    (List.insertionSort versionLeRow l).reverse = List.insertionSort versionGeRow l := by
  have hne_asc : List.Pairwise (fun a b : EventRow => a.version ≠ b.version)
      (List.insertionSort versionLeRow l) :=
    (List.Perm.pairwise_iff (fun hxy => Ne.symm hxy)
      (List.perm_insertionSort versionLeRow l)).mpr hne
  have hne_desc : List.Pairwise (fun a b : EventRow => a.version ≠ b.version)
      (List.insertionSort versionGeRow l) :=
    (List.Perm.pairwise_iff (fun hxy => Ne.symm hxy)
      (List.perm_insertionSort versionGeRow l)).mpr hne
  have hperm : (List.insertionSort versionLeRow l).reverse.Perm
      (List.insertionSort versionGeRow l) :=
    ((List.reverse_perm _).trans (List.perm_insertionSort _ l)).trans
      (List.perm_insertionSort _ l).symm
  have h1 : List.Sorted versionGtRow (List.insertionSort versionLeRow l).reverse := by
    unfold List.Sorted
    rw [List.pairwise_reverse]
    exact sorted_le_strict (List.sorted_insertionSort versionLeRow l) hne_asc
  have h2 : List.Sorted versionGtRow (List.insertionSort versionGeRow l) :=
    sorted_ge_strict (List.sorted_insertionSort versionGeRow l) hne_desc
  exact List.eq_of_perm_of_sorted hperm h1 h2

/-! ## Behaviour of the append phases -/

theorem append_check_conflict {db : Db} {request : AppendEventRequest} {expected : Int}
    (hvalid : is_valid_stream_id request.stream_id = true)
    (hexp : request.expected_version = some expected)
    (hne : get_stream_version db request.stream_id ≠ expected) :
    append_check db request =
      .error (.Conflict ("Version conflict: expected " ++ toString expected ++
        ", got " ++ toString (get_stream_version db request.stream_id))) := by
  unfold append_check
  rw [hvalid, hexp]
  simp only [Bool.not_true, Bool.false_eq_true, if_false]
  rw [if_pos hne]

theorem append_check_ok {db : Db} {request : AppendEventRequest}
    (hvalid : is_valid_stream_id request.stream_id = true)
    (hok : request.expected_version = none ∨
      request.expected_version = some (get_stream_version db request.stream_id)) :
    append_check db request = .ok (get_stream_version db request.stream_id) := by
  unfold append_check
  rw [hvalid]
  simp only [Bool.not_true, Bool.false_eq_true, if_false]
  rcases hok with h | h
  · rw [h]
  · rw [h]
    simp

theorem append_insert_fresh (db : Db) (request : AppendEventRequest) (event_id : Nat)
    (now : Int) :
    append_insert db request (get_stream_version db request.stream_id + 1) event_id now =
      ({ db with events := db.events ++
          [appendedRow request (get_stream_version db request.stream_id + 1) event_id now] },
       .ok
         { id := event_id
           stream_id := request.stream_id
           event_type := request.event_type
           data := request.data
           metadata := request.metadata
           version := get_stream_version db request.stream_id + 1
           created_at := now }) := by
  unfold append_insert
  have hfresh : insert_event db
      (appendedRow request (get_stream_version db request.stream_id + 1) event_id now) =
      .ok { db with events := db.events ++
        [appendedRow request (get_stream_version db request.stream_id + 1) event_id now] } :=
    insert_event_fresh
      (fun e he hs =>
        lt_of_le_of_lt (version_le_get_stream_version he hs) (lt_add_one _))
  rw [hfresh]

/-! ## Concrete sample data for the witnesses -/

/-- A sample event row used by the concrete witnesses. -/
def sampleEvent (sid : String) (v : Int) : EventRow :=
  { id := v.toNat
    stream_id := sid
    event_type := "t"
    data := .null
    metadata := none
    version := v
    created_at := 0
    partition_key := get_partition_key sid
    archived := false }

/-- A sample snapshot row used by the concrete witnesses. -/
def sampleSnap (sid : String) (v : Int) : SnapshotRow :=
  { id := v.toNat + 100, stream_id := sid, version := v, data := [], created_at := 0 }

/-- The append request of race scenario S4: no expected version, new stream. -/
def raceRequest : AppendEventRequest :=
  { stream_id := "proj1/ws/a"
    event_type := "Created"
    data := .null
    metadata := none
    expected_version := none }

/-- The database state after the race's winner committed its insert. -/
def raceDbAfterWinner : Db :=
  (append_event { events := [], snapshots := [] } raceRequest 1 10).1

/-! ## The claims -/

/-- Claim C1 (code bug): both concurrent appenders read version 0 of the
empty stream; the winner's append returns `version = 1`; the loser's insert
then hits the unique-constraint violation on `(stream_id, 1)`, which
`append_event` maps to `Database` — an HTTP 500 — and never to `Conflict`
(HTTP 409), contrary to the spec. -/
theorem claim_C1_unique_violation_mapped_to_database :
    (append_event { events := [], snapshots := [] } raceRequest 1 10).2 =
      .ok { id := 1, stream_id := "proj1/ws/a", event_type := "Created", data := .null,
            metadata := none, version := 1, created_at := 10 }
    ∧ append_check { events := [], snapshots := [] } raceRequest = .ok 0
    ∧ append_insert raceDbAfterWinner raceRequest (0 + 1) 2 11 =
        (raceDbAfterWinner,
         .error (.Database "duplicate key value violates unique constraint"))
    ∧ (AppError.Database "duplicate key value violates unique constraint").statusCode = 500
    ∧ (AppError.Conflict "any").statusCode = 409
    ∧ ∀ msg, (append_insert raceDbAfterWinner raceRequest (0 + 1) 2 11).2 ≠
        .error (.Conflict msg) := by
  have h3 : append_insert raceDbAfterWinner raceRequest (0 + 1) 2 11 =
      (raceDbAfterWinner,
       .error (.Database "duplicate key value violates unique constraint")) := by decide
  refine ⟨by decide, by decide, h3, rfl, rfl, ?_⟩
  intro msg h
  rw [h3] at h
  simp at h

/-- Claim C2: for every append request with a valid stream id, the append
path reads `V = MAX(version)` over the stream's events (`V` bounds every
stored version of the stream, and is `0` when the stream has none); if
`expected_version` is provided and differs from `V`, the append fails with a
`Conflict` reporting both the expected and the actual value and leaves the
state unchanged; otherwise it inserts exactly one row and returns the event
with version `V + 1`. -/
theorem claim_C2_append_version_contract (db : Db) (request : AppendEventRequest)
    (event_id : Nat) (now : Int)
    (hvalid : is_valid_stream_id request.stream_id = true) :
    (∀ e ∈ db.events, e.stream_id = request.stream_id →
        e.version ≤ get_stream_version db request.stream_id)
    ∧ ((∀ e ∈ db.events, e.stream_id ≠ request.stream_id) →
        get_stream_version db request.stream_id = 0)
    ∧ (∀ expected : Int, request.expected_version = some expected →
        expected ≠ get_stream_version db request.stream_id →
        append_event db request event_id now =
          (db, .error (.Conflict ("Version conflict: expected " ++ toString expected ++
            ", got " ++ toString (get_stream_version db request.stream_id)))))
    ∧ ((request.expected_version = none ∨
        request.expected_version = some (get_stream_version db request.stream_id)) →
        append_event db request event_id now =
          ({ db with events := db.events ++
              [appendedRow request (get_stream_version db request.stream_id + 1) event_id
                now] },
           .ok
             { id := event_id
               stream_id := request.stream_id
               event_type := request.event_type
               data := request.data
               metadata := request.metadata
               version := get_stream_version db request.stream_id + 1
               created_at := now })) := by
  refine ⟨fun e he hs => version_le_get_stream_version he hs,
    fun h => get_stream_version_empty h, ?_, ?_⟩
  · intro expected hexp hne
    unfold append_event
    rw [append_check_conflict hvalid hexp (Ne.symm hne)]
  · intro hok
    unfold append_event
    rw [append_check_ok hvalid hok]
    exact append_insert_fresh db request event_id now

/-- Witness for C2: on a stream at version 1, an append with
`expected_version = 0` fails with the concrete conflict message of scenario
S3 and changes nothing. -/
theorem claim_C2_append_version_contract_witness :
    append_event { events := [sampleEvent "proj1/ws/a" 1], snapshots := [] }
      { stream_id := "proj1/ws/a", event_type := "Created", data := .null,
        metadata := none, expected_version := some 0 } 2 5 =
      ({ events := [sampleEvent "proj1/ws/a" 1], snapshots := [] },
       .error (.Conflict "Version conflict: expected 0, got 1")) := by
  have h := (claim_C2_append_version_contract
    { events := [sampleEvent "proj1/ws/a" 1], snapshots := [] }
    { stream_id := "proj1/ws/a", event_type := "Created", data := .null,
      metadata := none, expected_version := some 0 } 2 5 (by decide)).2.2.1 0 rfl (by decide)
  rw [h]
  decide

/-- The database of the C3 scenario: no events, one stored snapshot for
stream `s`. -/
def dbOneSnapshot : Db :=
  { events := []
    snapshots := [{ id := 9, stream_id := "s", version := 1, data := [0], created_at := 0 }] }

/-- Claim C3 (code bug): the delete and the insert of `create_snapshot` are
two independently committing statements, not one atomic unit.  When the
insert fails after the delete committed, a stream that had one snapshot is
left with zero snapshots and the handler returns an error — the state is not
unchanged on error. -/
theorem claim_C3_replace_not_atomic :
    (dbOneSnapshot.snapshots.filter (fun s => s.stream_id == "s")).length = 1
    ∧ create_snapshot dbOneSnapshot { stream_id := "s", version := 2, data := .null }
        10 20 true =
        ({ events := [], snapshots := [] }, .error (.Database "insert failed")) := by
  exact ⟨by decide, by decide⟩

/-- Counterexample to C4: on an empty database — no events at all —
`create_snapshot` happily stores a snapshot at version 1, so the stored
snapshot references no existing event and the claimed invariant is violated
by this operation. -/
theorem claim_C4_counterexample :
    (create_snapshot { events := [], snapshots := [] }
        { stream_id := "s", version := 1, data := .null } 3 4 false).2 =
      .ok { id := 3, stream_id := "s", version := 1,
            data := lz4_compress (serde_to_vec .null), created_at := 4 }
    ∧ (create_snapshot { events := [], snapshots := [] }
        { stream_id := "s", version := 1, data := .null } 3 4 false).1.events = []
    ∧ ((create_snapshot { events := [], snapshots := [] }
        { stream_id := "s", version := 1, data := .null } 3 4 false).1.snapshots.all
          (fun s => (create_snapshot { events := [], snapshots := [] }
            { stream_id := "s", version := 1, data := .null } 3 4 false).1.events.any
              (fun e => e.stream_id == s.stream_id && e.version == s.version))) = false := by
  exact ⟨by decide, by decide, by decide⟩

/-- Claim C4 (amended): `create_snapshot` performs no referential check at
all — for every database state it stores a snapshot at exactly the requested
`(stream_id, version)`, whether or not any event with that stream and
version exists, so the invariant is not enforced by this operation. -/
theorem claim_C4_no_referential_check (db : Db) (request : CreateSnapshotRequest)
    (snapshot_id : Nat) (now : Int) :
    (create_snapshot db request snapshot_id now false).2 =
      .ok { id := snapshot_id, stream_id := request.stream_id, version := request.version,
            data := lz4_compress (serde_to_vec request.data), created_at := now }
    ∧ (create_snapshot db request snapshot_id now false).1.snapshots =
        db.snapshots.filter (fun s => !(s.stream_id == request.stream_id)) ++
          [{ id := snapshot_id, stream_id := request.stream_id, version := request.version,
             data := lz4_compress (serde_to_vec request.data), created_at := now }]
    ∧ (create_snapshot db request snapshot_id now false).1.events = db.events := by
  unfold create_snapshot
  exact ⟨rfl, rfl, rfl⟩

/-- Claim C5 (code bug): the needs-snapshot query groups by
`(e.stream_id, s.version)` instead of per stream with `MAX(s.version)`.
First database: stream `s` has events 1..3 and snapshots at versions 1 and 3;
with threshold 2 the greatest snapshot version is current, so per the claim
no row should qualify — yet the query returns a row, and reports
`last_snapshot_version = 1` rather than the greatest (3).  Second database:
stream `s` has events 1..4 and snapshots at 1 and 2; the query returns two
rows for the single stream. -/
theorem claim_C5_needs_snapshot_query_grouping :
    streams_needing_snapshot
      { events := [sampleEvent "s" 1, sampleEvent "s" 2, sampleEvent "s" 3],
        snapshots := [sampleSnap "s" 1, sampleSnap "s" 3] } 2 = [("s", 3, 1)]
    ∧ streams_needing_snapshot
      { events := [sampleEvent "s" 1, sampleEvent "s" 2, sampleEvent "s" 3,
          sampleEvent "s" 4],
        snapshots := [sampleSnap "s" 1, sampleSnap "s" 2] } 2 =
        [("s", 4, 1), ("s", 4, 2)]
    ∧ streams_needing_snapshot
      { events := [sampleEvent "s" 1, sampleEvent "s" 2, sampleEvent "t" 1],
        snapshots := [] } 2 = [("s", 2, 0)] := by
  exact ⟨by decide, by decide, by decide⟩

/-- The stream-id grammar of the spec: a character of the class, repeated 1
to 255 times, written from the spec's words. -/
def matchesStreamIdGrammar (s : String) : Bool :=
  decide (1 ≤ s.data.length) && decide (s.data.length ≤ 255) &&
    s.data.all streamIdGrammarChar

/-- Counterexample to C6: `is_valid_stream_id` accepts the empty string,
which the grammar `[A-Za-z0-9_\x2d/]` repeated 1 to 255 times rejects; in
particular an append to the empty stream id succeeds instead of failing with
`BadRequest`. -/
theorem claim_C6_counterexample :
    is_valid_stream_id "" = true
    ∧ matchesStreamIdGrammar "" = false
    ∧ (append_event { events := [], snapshots := [] }
        { stream_id := "", event_type := "t", data := .null, metadata := none,
          expected_version := none } 1 2).2 =
      .ok { id := 1, stream_id := "", event_type := "t", data := .null, metadata := none,
            version := 1, created_at := 2 } := by
  exact ⟨by decide, by decide, by decide⟩

theorem all_valid_eq_all_grammar (cs : List Char) (hascii : ∀ c ∈ cs, c.toNat < 128) :
    cs.all isValidStreamChar = cs.all streamIdGrammarChar := by
  induction cs with
  | nil => rfl
  | cons c cs ih =>
    simp only [List.all_cons]
    rw [isValidStreamChar_eq_grammar_of_ascii c (hascii c (List.mem_cons_self c cs)),
      ih (fun x hx => hascii x (List.mem_cons_of_mem c hx))]

set_option maxRecDepth 8000 in
/-- Claim C6 (amended): on ASCII strings, `is_valid_stream_id` accepts
exactly the strings of length at most 255 whose characters all lie in the
class `[A-Za-z0-9_\x2d/]` — with no lower bound on the length, so the empty
string is accepted.  A length-255 id is accepted and a length-256 id
rejected, `$` is rejected, `a-_/9` is accepted, and `append_event` fails
with `BadRequest` on every stream id the check rejects. -/
theorem claim_C6_stream_id_validation :
    (∀ s : String, (∀ c ∈ s.data, c.toNat < 128) →
      is_valid_stream_id s =
        (decide (s.data.length ≤ 255) && s.data.all streamIdGrammarChar))
    ∧ is_valid_stream_id (String.mk (List.replicate 255 'a')) = true
    ∧ is_valid_stream_id (String.mk (List.replicate 256 'a')) = false
    ∧ is_valid_stream_id "$" = false
    ∧ is_valid_stream_id "a-_/9" = true
    ∧ is_valid_stream_id "" = true
    ∧ (∀ (db : Db) (request : AppendEventRequest) (event_id : Nat) (now : Int),
        is_valid_stream_id request.stream_id = false →
        append_event db request event_id now =
          (db, .error (.BadRequest "Invalid stream_id format"))) := by
  refine ⟨?_, by decide, by decide, by decide, by decide, by decide, ?_⟩
  · intro s hascii
    unfold is_valid_stream_id
    rw [utf8ByteSize_ascii s hascii]
    congr 1
    exact all_valid_eq_all_grammar s.data hascii
  · intro db request event_id now hinvalid
    unfold append_event append_check
    rw [hinvalid]
    simp

/-- Witness for C6: the equivalence evaluated at `a-_/9` and the concrete
`BadRequest` on the `$` stream id. -/
theorem claim_C6_stream_id_validation_witness :
    is_valid_stream_id "a-_/9" =
      (decide (("a-_/9" : String).data.length ≤ 255) &&
        ("a-_/9" : String).data.all streamIdGrammarChar)
    ∧ append_event { events := [], snapshots := [] }
        { stream_id := "$", event_type := "t", data := .null, metadata := none,
          expected_version := none } 1 2 =
        ({ events := [], snapshots := [] },
         .error (.BadRequest "Invalid stream_id format")) := by
  exact ⟨claim_C6_stream_id_validation.1 "a-_/9" (by decide),
    claim_C6_stream_id_validation.2.2.2.2.2.2 { events := [], snapshots := [] }
      { stream_id := "$", event_type := "t", data := .null, metadata := none,
        expected_version := none } 1 2 (by decide)⟩

/-- Counterexample to C7: the limit is not clamped to the range `[1, 1000]`.
On a one-event stream, `limit = 0` returns the empty list, while the value
`max 1 (min 0 1000) = 1` that clamping to `[1, 1000]` would produce returns
one event — so `limit = 0` does not behave as a limit clamped into
`[1, 1000]`. -/
theorem claim_C7_counterexample :
    get_stream_events { events := [sampleEvent "s" 1], snapshots := [] } "s"
      { from_version := none, limit := some 0, direction := none } = .ok []
    ∧ get_stream_events { events := [sampleEvent "s" 1], snapshots := [] } "s"
      { from_version := none, limit := some (max 1 (min 0 1000)), direction := none } =
        .ok [rowToEvent (sampleEvent "s" 1)] := by
  exact ⟨by decide, by decide⟩

/-- Claim C7 (amended): the limit defaults to 100 and is capped above at
1000 (`unwrap_or(100).min(1000)`); there is no lower clamp, so `limit = 0`
yields the empty list while every `limit > 1000` behaves as `limit = 1000`. -/
theorem claim_C7_limit_default_and_cap :
    (∀ (db : Db) (sid : String) (fv : Option Int) (d : Option String),
        get_stream_events db sid { from_version := fv, limit := none, direction := d } =
          get_stream_events db sid
            { from_version := fv, limit := some 100, direction := d })
    ∧ (∀ (db : Db) (sid : String) (fv : Option Int) (d : Option String) (l : Int),
        1000 ≤ l →
        get_stream_events db sid { from_version := fv, limit := some l, direction := d } =
          get_stream_events db sid
            { from_version := fv, limit := some 1000, direction := d })
    ∧ (∀ (db : Db) (sid : String) (fv : Option Int) (d : Option String),
        get_stream_events db sid { from_version := fv, limit := some 0, direction := d } =
          .ok []) := by
  refine ⟨fun db sid fv d => rfl, ?_, ?_⟩
  · intro db sid fv d l hl
    have he : effectiveLimit (some l) = effectiveLimit (some 1000) := by
      unfold effectiveLimit
      simp only [Option.getD_some]
      rw [min_eq_right hl, min_self]
    simp only [get_stream_events, he]
  · intro db sid fv d
    simp [get_stream_events, effectiveLimit]

/-- Witness for C7: `limit = 5000` behaves exactly as `limit = 1000` on a
concrete database. -/
theorem claim_C7_limit_default_and_cap_witness :
    get_stream_events { events := [sampleEvent "s" 1], snapshots := [] } "s"
      { from_version := none, limit := some 5000, direction := none } =
      get_stream_events { events := [sampleEvent "s" 1], snapshots := [] } "s"
        { from_version := none, limit := some 1000, direction := none } :=
  claim_C7_limit_default_and_cap.2.1 { events := [sampleEvent "s" 1], snapshots := [] }
    "s" none none 5000 (by decide)

/-! ## Helper lemmas for the snapshot round trip -/

theorem create_snapshot_ok (db : Db) (request : CreateSnapshotRequest) (snapshot_id : Nat)
    (now : Int) :
    create_snapshot db request snapshot_id now false =
      ({ events := db.events
         snapshots := db.snapshots.filter (fun s => !(s.stream_id == request.stream_id)) ++
           [{ id := snapshot_id, stream_id := request.stream_id, version := request.version,
              data := lz4_compress (serde_to_vec request.data), created_at := now }] },
       .ok
         { id := snapshot_id
           stream_id := request.stream_id
           version := request.version
           data := lz4_compress (serde_to_vec request.data)
           created_at := now }) := by
  unfold create_snapshot
  rfl

theorem filter_stream_after_replace (l : List SnapshotRow) (sid : String)
    (row : SnapshotRow) (hrow : row.stream_id = sid) :
    ((l.filter (fun s => !(s.stream_id == sid))) ++ [row]).filter
      (fun s => s.stream_id == sid) = [row] := by
  rw [List.filter_append]
  have h1 : (l.filter (fun s => !(s.stream_id == sid))).filter
      (fun s => s.stream_id == sid) = [] := by
    rw [List.filter_filter]
    apply List.filter_eq_nil_iff.mpr
    intro a _
    simp only [Bool.and_eq_true, beq_iff_eq, Bool.not_eq_true', beq_eq_false_iff_ne,
      ne_eq, not_and]
    intro hmem hne
    exact hne hmem
  rw [h1]
  simp [hrow]

theorem get_latest_snapshot_single {db : Db} {sid : String} {row : SnapshotRow}
    (hrows : db.snapshots.filter (fun s => s.stream_id == sid) = [row]) :
    get_latest_snapshot db sid =
      match lz4_decompress row.data (1024 * 1024) with
      | .error _ => .error (.Internal "Decompression failed")
      | .ok decompressed =>
        match serde_from_slice decompressed with
        | .error _ => .error (.Internal "Deserialization failed")
        | .ok data => .ok (some data) := by
  unfold get_latest_snapshot
  rw [hrows]
  rfl

theorem get_latest_snapshot_single_error {db : Db} {sid : String} {row : SnapshotRow}
    (hrows : db.snapshots.filter (fun s => s.stream_id == sid) = [row])
    (hdec : lz4_decompress row.data (1024 * 1024) = .error ()) :
    get_latest_snapshot db sid = .error (.Internal "Decompression failed") := by
  rw [get_latest_snapshot_single hrows, hdec]

/-- Claim C8 (amended): for every stream id, version and JSON payload whose
serialized form is at most 1 MiB, `create_snapshot` followed by
`latest_snapshot` returns exactly the stored payload — compression followed
by bounded decompression and JSON decoding is the identity.  (Payloads whose
serialization exceeds the 1 MiB decompression bound are excluded: they fail,
as the counterexample shows.) -/
theorem claim_C8_roundtrip_within_bound (db : Db) (request : CreateSnapshotRequest)
    (snapshot_id : Nat) (now : Int)
    (hsize : (serde_to_vec request.data).length ≤ 1024 * 1024) :
    get_latest_snapshot (create_snapshot db request snapshot_id now false).1
      request.stream_id = .ok (some request.data) := by
  rw [create_snapshot_ok]
  rw [get_latest_snapshot_single
    (filter_stream_after_replace db.snapshots request.stream_id
      { id := snapshot_id, stream_id := request.stream_id, version := request.version,
        data := lz4_compress (serde_to_vec request.data), created_at := now } rfl)]
  have hdec : lz4_decompress (lz4_compress (serde_to_vec request.data)) (1024 * 1024) =
      .ok (serde_to_vec request.data) := by
    unfold lz4_compress lz4_decompress
    rw [if_pos hsize]
  simp only [hdec, serde_from_slice_to_vec]

/-- Witness for C8: the scenario-S5 payload round-trips on a concrete
database. -/
theorem claim_C8_roundtrip_within_bound_witness :
    get_latest_snapshot (create_snapshot { events := [], snapshots := [] }
        { stream_id := "s", version := 3,
          data := .obj (.cons "k" (.str "v") .nil) } 7 9 false).1 "s" =
      .ok (some (.obj (.cons "k" (.str "v") .nil))) :=
  claim_C8_roundtrip_within_bound { events := [], snapshots := [] }
    { stream_id := "s", version := 3, data := .obj (.cons "k" (.str "v") .nil) } 7 9
    (by decide)

/-- The JSON payload of the C8 counterexample: a string of 2^20 characters,
whose serialization necessarily exceeds the 1 MiB decompression bound. -/
def bigJson : Json := .str (String.mk (List.replicate 1048576 'a'))

theorem concatMap_encodeNat_replicate (n : Nat) :
    (concatMap (fun c => encodeNat c.toNat) (List.replicate n 'a')).length = n := by
  induction n with
  | zero => rfl
  | succ n ih =>
    rw [List.replicate_succ]
    show (encodeNat 'a'.toNat ++ concatMap (fun c => encodeNat c.toNat)
      (List.replicate n 'a')).length = n + 1
    rw [List.length_append, ih]
    have h : (encodeNat 'a'.toNat).length = 1 := by decide
    rw [h]
    omega

theorem serde_to_vec_str_replicate_length (n : Nat) :
    (serde_to_vec (.str (String.mk (List.replicate n 'a')))).length =
      (encodeNat n).length + n + 1 := by
  show (encodeJson (.str (String.mk (List.replicate n 'a')))).length = _
  rw [encodeJson]
  unfold encodeString
  simp only [List.length_cons, List.length_append]
  rw [concatMap_encodeNat_replicate]
  simp [List.length_replicate]

theorem serde_to_vec_bigJson_length_gt :
    1024 * 1024 < (serde_to_vec bigJson).length := by
  have h := serde_to_vec_str_replicate_length 1048576
  have hpos := encodeNat_length_pos 1048576
  show 1024 * 1024 < (serde_to_vec (.str (String.mk (List.replicate 1048576 'a')))).length
  omega

/-- Counterexample to C8: for the 1 MiB string payload, the stored
snapshot's decompression exceeds the hard bound and `latest_snapshot` fails
with `Internal` instead of returning the payload. -/
theorem claim_C8_counterexample :
    get_latest_snapshot (create_snapshot { events := [], snapshots := [] }
        { stream_id := "s", version := 1, data := bigJson } 0 0 false).1 "s" =
      .error (.Internal "Decompression failed") := by
  have hdec : lz4_decompress (lz4_compress (serde_to_vec bigJson)) (1024 * 1024) =
      .error () := by
    unfold lz4_compress lz4_decompress
    rw [if_neg (not_le.mpr serde_to_vec_bigJson_length_gt)]
  rw [create_snapshot_ok]
  exact get_latest_snapshot_single_error
    (filter_stream_after_replace [] "s"
      { id := 0, stream_id := "s", version := 1,
        data := lz4_compress (serde_to_vec bigJson), created_at := 0 } rfl) hdec

/-! ## Helper lemmas: the read handler's successful result -/

theorem get_stream_events_ok (db : Db) (sid : String) (q : EventsQuery)
    (hlim : 0 ≤ effectiveLimit q.limit) :
    get_stream_events db sid q = .ok
      (((if q.direction.getD "forward" == "backward" then
          List.insertionSort versionGeRow (matchingRows db sid (q.from_version.getD 0))
        else
          List.insertionSort versionLeRow
            (matchingRows db sid (q.from_version.getD 0))).take
        (effectiveLimit q.limit).toNat).map rowToEvent) := by
  unfold get_stream_events
  rw [if_neg (not_lt.mpr hlim)]

theorem read_result_matches (db : Db) (sid : String) (q : EventsQuery)
    (hlim : 0 ≤ effectiveLimit q.limit) :
    ∃ l, get_stream_events db sid q = .ok l ∧
      ∀ ev ∈ l, ev.stream_id = sid ∧ q.from_version.getD 0 ≤ ev.version := by
  refine ⟨_, get_stream_events_ok db sid q hlim, ?_⟩
  intro ev hev
  obtain ⟨row, hrow, hconv⟩ := List.mem_map.mp hev
  have htake := List.take_subset _ _ hrow
  have hrow2 : row ∈ matchingRows db sid (q.from_version.getD 0) := by
    by_cases hd : q.direction.getD "forward" == "backward"
    · rw [if_pos hd] at htake
      exact ((List.perm_insertionSort versionGeRow _).mem_iff).mp htake
    · rw [if_neg hd] at htake
      exact ((List.perm_insertionSort versionLeRow _).mem_iff).mp htake
  obtain ⟨_, hsid, hver⟩ := mem_matchingRows.mp hrow2
  exact hconv ▸ ⟨hsid, hver⟩

/-- Claim C9: the read handler returns only events of the stream with
version at least `from_version`; with the forward direction they are
strictly increasing in version and with `backward` strictly decreasing;
when the limit does not truncate, the backward result is the reverse of the
forward result; and every direction string other than `"backward"` behaves
exactly as `"forward"`. -/
theorem claim_C9_read_ordering (db : Db) (sid : String) (q : EventsQuery)
    (huniq : StreamVersionsUnique db) (hlim : 0 ≤ effectiveLimit q.limit) :
    (∃ l, get_stream_events db sid q = .ok l ∧
      ∀ ev ∈ l, ev.stream_id = sid ∧ q.from_version.getD 0 ≤ ev.version)
    ∧ (∀ d : String, d ≠ "backward" →
        get_stream_events db sid
          { from_version := q.from_version, limit := q.limit, direction := some d } =
        get_stream_events db sid
          { from_version := q.from_version, limit := q.limit,
            direction := some "forward" })
    ∧ (∀ l, get_stream_events db sid
          { from_version := q.from_version, limit := q.limit,
            direction := some "forward" } = .ok l →
        List.Pairwise (fun a b : Event => a.version < b.version) l)
    ∧ (∀ l, get_stream_events db sid
          { from_version := q.from_version, limit := q.limit,
            direction := some "backward" } = .ok l →
        List.Pairwise (fun a b : Event => b.version < a.version) l)
    ∧ ((matchingRows db sid (q.from_version.getD 0)).length ≤
          (effectiveLimit q.limit).toNat →
        ∀ lf lb,
          get_stream_events db sid
            { from_version := q.from_version, limit := q.limit,
              direction := some "forward" } = .ok lf →
          get_stream_events db sid
            { from_version := q.from_version, limit := q.limit,
              direction := some "backward" } = .ok lb →
          lb = lf.reverse) := by
  have hfb : (("forward" : String) == "backward") = false := by decide
  have hbb : (("backward" : String) == "backward") = true := by decide
  have hne := matchingRows_pairwise_ne huniq sid (q.from_version.getD 0)
  have hstrict_asc : List.Pairwise versionLtRow
      (List.insertionSort versionLeRow (matchingRows db sid (q.from_version.getD 0))) :=
    sorted_le_strict (List.sorted_insertionSort _ _)
      ((List.Perm.pairwise_iff (fun hxy => Ne.symm hxy)
        (List.perm_insertionSort _ _)).mpr hne)
  have hstrict_desc : List.Pairwise versionGtRow
      (List.insertionSort versionGeRow (matchingRows db sid (q.from_version.getD 0))) :=
    sorted_ge_strict (List.sorted_insertionSort _ _)
      ((List.Perm.pairwise_iff (fun hxy => Ne.symm hxy)
        (List.perm_insertionSort _ _)).mpr hne)
  refine ⟨read_result_matches db sid q hlim, ?_, ?_, ?_, ?_⟩
  · intro d hd
    rw [get_stream_events_ok db sid
        { from_version := q.from_version, limit := q.limit, direction := some d } hlim,
      get_stream_events_ok db sid
        { from_version := q.from_version, limit := q.limit,
          direction := some "forward" } hlim]
    have hd' : (d == "backward") = false := beq_eq_false_iff_ne.mpr hd
    simp only [Option.getD_some, hd', hfb]
  · intro l hl
    rw [get_stream_events_ok db sid
      { from_version := q.from_version, limit := q.limit,
        direction := some "forward" } hlim] at hl
    simp only [Option.getD_some, hfb, Bool.false_eq_true, if_false] at hl
    have hleq := Except.ok.inj hl
    subst hleq
    refine List.pairwise_map.mpr ?_
    exact (List.Pairwise.sublist (List.take_sublist _ _) hstrict_asc).imp (fun h => h)
  · intro l hl
    rw [get_stream_events_ok db sid
      { from_version := q.from_version, limit := q.limit,
        direction := some "backward" } hlim] at hl
    simp only [Option.getD_some, hbb, if_true] at hl
    have hleq := Except.ok.inj hl
    subst hleq
    refine List.pairwise_map.mpr ?_
    exact (List.Pairwise.sublist (List.take_sublist _ _) hstrict_desc).imp (fun h => h)
  · intro hlen lf lb hf hb
    rw [get_stream_events_ok db sid
      { from_version := q.from_version, limit := q.limit,
        direction := some "forward" } hlim] at hf
    rw [get_stream_events_ok db sid
      { from_version := q.from_version, limit := q.limit,
        direction := some "backward" } hlim] at hb
    simp only [Option.getD_some, hfb, Bool.false_eq_true, if_false] at hf
    simp only [Option.getD_some, hbb, if_true] at hb
    have hlf := (Except.ok.inj hf).symm
    have hlb := (Except.ok.inj hb).symm
    have hlen_asc : (List.insertionSort versionLeRow
        (matchingRows db sid (q.from_version.getD 0))).length ≤
        (effectiveLimit q.limit).toNat := by
      rw [(List.perm_insertionSort versionLeRow _).length_eq]
      exact hlen
    have hlen_desc : (List.insertionSort versionGeRow
        (matchingRows db sid (q.from_version.getD 0))).length ≤
        (effectiveLimit q.limit).toNat := by
      rw [(List.perm_insertionSort versionGeRow _).length_eq]
      exact hlen
    rw [hlf, hlb, List.take_of_length_le hlen_asc, List.take_of_length_le hlen_desc,
      ← List.map_reverse, reverse_sortAsc_eq_sortDesc hne]

/-- Witness for C9 on a concrete two-event stream: the backward read is the
reverse of the forward read. -/
theorem claim_C9_read_ordering_witness :
    [rowToEvent (sampleEvent "s" 2), rowToEvent (sampleEvent "s" 1)] =
      [rowToEvent (sampleEvent "s" 1), rowToEvent (sampleEvent "s" 2)].reverse :=
  (claim_C9_read_ordering
      { events := [sampleEvent "s" 1, sampleEvent "s" 2], snapshots := [] } "s"
      { from_version := none, limit := none, direction := none }
      (by decide) (by decide)).2.2.2.2
    (by decide) _ _ (by decide) (by decide)

/-- Claim C10: the read path validates nothing about the stream id — for
every stream id string, even ones `is_valid_stream_id` rejects,
`get_stream_events` never fails with `BadRequest`, and (whenever the
effective limit is non-negative, as with the default query) it returns the
list of matching events. -/
theorem claim_C10_read_no_validation (db : Db) (sid : String) (q : EventsQuery) :
    (∀ msg, get_stream_events db sid q ≠ .error (.BadRequest msg))
    ∧ (0 ≤ effectiveLimit q.limit →
        ∃ l, get_stream_events db sid q = .ok l ∧
          ∀ ev ∈ l, ev.stream_id = sid ∧ q.from_version.getD 0 ≤ ev.version) := by
  constructor
  · intro msg h
    unfold get_stream_events at h
    by_cases hneg : effectiveLimit q.limit < 0
    · rw [if_pos hneg] at h
      simp at h
    · rw [if_neg hneg] at h
      simp at h
  · intro hlim
    exact read_result_matches db sid q hlim

/-- Witness for C10: the stream id `$` is rejected by the validator, yet the
read handler returns an empty list rather than a `BadRequest`. -/
theorem claim_C10_read_no_validation_witness :
    is_valid_stream_id "$" = false
    ∧ get_stream_events { events := [], snapshots := [] } "$"
        { from_version := none, limit := none, direction := none } ≠
      .error (.BadRequest "Invalid stream_id format")
    ∧ get_stream_events { events := [], snapshots := [] } "$"
        { from_version := none, limit := none, direction := none } = .ok [] := by
  have hthm := claim_C10_read_no_validation { events := [], snapshots := [] } "$"
    { from_version := none, limit := none, direction := none }
  have _hx := hthm.2 (by decide)
  exact ⟨by decide, hthm.1 "Invalid stream_id format", by decide⟩

end EventStore
